import Mathlib

/-!
Verification of the security-middleware pipeline of the `backend_chat_buy_crypto`
repository (FastAPI service in `backend/`): CSRF double-submit guard, anti-replay
nonce/timestamp guard, token-bucket rate limiter, session store, and the
middleware composition of `app.py`.

Shallow embedding conventions:
* Python `float` arithmetic of the rate limiter is modelled over `ℚ`
  (exact real-number semantics of the algorithm; IEEE rounding is out of scope).
* Python dicts are modelled as functions `String → Option v`; `dict.pop`,
  assignment and the lazy purge become pointwise updates.
* `time.time()` is passed in as an explicit `now` argument.  The several calls a
  single request makes are modelled as returning the same instant.
* Randomness (`secrets.token_urlsafe`, `secrets.token_hex`, `uuid4`) is modelled
  by passing the generated value as an argument; freshness of the generated
  value is a hypothesis where a claim needs it.
-/

namespace ChatBackend

/-! ## CSRF guard (`backend/core/csrf.py`) -/

/-- The set `MUTATING_METHODS = {"POST", "PUT", "PATCH", "DELETE"}` (same set in
`core/csrf.py` and `core/anti_replay.py`). -/
def MUTATING_METHODS : List String := ["POST", "PUT", "PATCH", "DELETE"]

/-- Python truthiness of an optional string: `not x` is true when the value is
absent (`None`) or the empty string. -/
def truthy : Option String → Bool
  | none => false
  | some s => s ≠ ""

/-- Result of the `require_csrf` dependency: pass, or an HTTP 403 with the
logged reason (`missing` / `mismatch`). -/
inductive CsrfResult where
  | pass
  | reject_missing
  | reject_mismatch
  deriving DecidableEq, Repr

/-- The dependency `require_csrf(request)` from `core/csrf.py`, as a function of the request
method, the `csrftoken` cookie and the `X-CSRF-Token` header.
`secrets.compare_digest` is a constant-time string equality; its value is plain
equality, which is what we model. -/
def require_csrf (method : String) (cookie header : Option String) : CsrfResult :=
  if method ∉ MUTATING_METHODS then .pass
  else if ¬ truthy cookie ∨ ¬ truthy header then .reject_missing
  else if cookie.getD "" ≠ header.getD "" then .reject_mismatch
  else .pass

/-! ## Rate limiter (`backend/core/rate_limit.py`) -/

/-- One entry of `_RATE_LIMIT_STATE`: `{"tokens": float, "ts": float}`. -/
structure Bucket where
  tokens : ℚ
  ts : ℚ
  deriving DecidableEq, Repr

/-- The module-level configuration `RATE_LIMIT_RPS` / `RATE_LIMIT_BURST`
(burst is always `2 * rps` in the source: `RATE_LIMIT_BURST = RATE_LIMIT_RPS * 2`). -/
structure RateConfig where
  rps : ℚ
  burst : ℚ
  deriving Repr

/-- Defaults: `RATE_LIMIT_RPS = 10.0`, `RATE_LIMIT_BURST = 20.0`. -/
def defaultRateConfig : RateConfig := ⟨10, 20⟩

/-- The bucket after the observation step of `RateLimitMiddleware.dispatch`:
a first-seen client gets a full bucket `{"tokens": BURST, "ts": now}`;
otherwise `elapsed = max(0.0, now - record["ts"])`, refill by `elapsed * RPS`
capped at `BURST`, and the timestamp is set to `now`. -/
def rateObserve (cfg : RateConfig) (rec : Option Bucket) (now : ℚ) : Bucket :=
  match rec with
  | none => ⟨cfg.burst, now⟩
  | some b =>
      let elapsed := max 0 (now - b.ts)
      ⟨min cfg.burst (b.tokens + elapsed * cfg.rps), now⟩

/-- The admission decision of `RateLimitMiddleware.dispatch` for one client:
reject (HTTP 429) if `tokens < 1.0` leaving the refilled record, else admit
after `record["tokens"] -= 1.0`.  Returns `(admitted?, stored bucket)`. -/
def rateDecide (cfg : RateConfig) (rec : Option Bucket) (now : ℚ) : Bool × Bucket :=
  let r := rateObserve cfg rec now
  if r.tokens < 1 then (false, r)
  else (true, { r with tokens := r.tokens - 1 })

/-- The decision `rateDecide` iterated from a known bucket, every request arriving at the
same instant `now` (used for the burst-exhaustion property). -/
def rateIter (cfg : RateConfig) (b : Bucket) (now : ℚ) : ℕ → Bucket
  | 0 => b
  | k + 1 => (rateDecide cfg (some (rateIter cfg b now k)) now).2

/-! ## Python `int(str)` -/

/-- A non-empty all-digit character list parsed as a natural number. -/
def parseDigits (cs : List Char) : Option ℕ :=
  if cs = [] then none
  else if cs.all Char.isDigit then
    some (cs.foldl (fun n c => 10 * n + (c.toNat - 48)) 0)
  else none

/-- ASCII whitespace ignored by Python `int(str)` around the number. -/
def isSpaceChar (c : Char) : Bool :=
  c = ' ' ∨ c = '\t' ∨ c = '\n' ∨ c = '\r' ∨ c = '\x0b' ∨ c = '\x0c'

/-- Strip leading and trailing whitespace from a character list. -/
def trimChars (cs : List Char) : List Char :=
  (((cs.dropWhile isSpaceChar).reverse).dropWhile isSpaceChar).reverse

/-- Python `int(str)`: surrounding whitespace is ignored, an optional sign
precedes a non-empty digit string.  (Python additionally allows single
underscores between digits; no claim depends on that and it is omitted.) -/
def pyInt (s : String) : Option ℤ :=
  match trimChars s.toList with
  | '-' :: rest => (parseDigits rest).map (fun n => -(n : ℤ))
  | '+' :: rest => (parseDigits rest).map (fun n => (n : ℤ))
  | cs => (parseDigits cs).map (fun n => (n : ℤ))

/-! ## Anti-replay guard (`backend/core/anti_replay.py`) -/

/-- Default `FRESHNESS_WINDOW = 300` seconds. -/
def FRESHNESS_WINDOW : ℤ := 300

/-- The `NONCES` dict: nonce string ↦ expiry instant (`now + FRESHNESS_WINDOW`,
an integer since `now = int(time.time())`). -/
def NonceStore : Type := String → Option ℤ

/-- The lazy purge of `AntiReplayMiddleware.dispatch`: every record whose
expiry has passed (`expires <= now`) is removed. -/
def purgeNonces (st : NonceStore) (now : ℤ) : NonceStore :=
  fun k =>
    match st k with
    | some e => if e ≤ now then none else some e
    | none => none

/-- The logged rejection reason of the anti-replay middleware. -/
inductive ReplayReason where
  | missing_headers
  | invalid_ts
  | stale_ts
  | nonce_reuse
  deriving DecidableEq, Repr

/-- Outcome of the anti-replay middleware: pass the request on, or return a
bare response with the given HTTP status (always 401 in the source). -/
inductive ReplayOutcome where
  | admitted
  | rejected (status : ℕ) (reason : ReplayReason)
  deriving DecidableEq, Repr

/-- The slice of the request the anti-replay middleware inspects. -/
structure ReplayRequest where
  method : String
  tsHeader : Option String
  nonceHeader : Option String
  deriving DecidableEq, Repr

/-- The middleware `AntiReplayMiddleware.dispatch` from `core/anti_replay.py`: the decision
and the updated `NONCES` store.  `now` is `int(time.time())`.
Branches in source order: non-mutating methods pass untouched; missing (or
empty, by Python truthiness) headers → 401; unparsable `X-TS` → 401;
`abs(now - ts) > W` → 401; then the lazy purge runs, a nonce already present →
401, otherwise the nonce is recorded with expiry `now + W` and the request is
admitted. -/
def antiReplayStep (W : ℤ) (st : NonceStore) (r : ReplayRequest) (now : ℤ) :
    ReplayOutcome × NonceStore :=
  if r.method ∉ MUTATING_METHODS then (.admitted, st)
  else if ¬ truthy r.tsHeader ∨ ¬ truthy r.nonceHeader then
    (.rejected 401 .missing_headers, st)
  else
    match pyInt (r.tsHeader.getD "") with
    | none => (.rejected 401 .invalid_ts, st)
    | some ts =>
      if W < |now - ts| then (.rejected 401 .stale_ts, st)
      else
        let purged := purgeNonces st now
        let n := r.nonceHeader.getD ""
        match purged n with
        | some _ => (.rejected 401 .nonce_reuse, purged)
        | none => (.admitted, fun k => if k = n then some (now + W) else purged k)

/-- A sequence of requests through the anti-replay middleware, each with its
arrival instant; returns the final nonce store. -/
def runReplay (W : ℤ) (st : NonceStore) : List (ReplayRequest × ℤ) → NonceStore
  | [] => st
  | p :: rest => runReplay W (antiReplayStep W st p.1 p.2).2 rest

/-! ## Session store (`backend/core/sessions.py`) -/

/-- Default `SESSION_TTL = 1800` seconds. -/
def SESSION_TTL : ℚ := 1800

/-- A value of the `SESSIONS` dict.  In the source a session is a dict that
always carries exactly the keys `created_at`, `last_seen`, `user_id` (so the
`if existing:` truthiness test in `rotate_sid` coincides with an
`is not None` test: the dict is never empty). -/
structure SessionData where
  created_at : ℚ
  last_seen : ℚ
  user_id : Option String
  deriving DecidableEq, Repr

/-- The `SESSIONS` dict. -/
def SessionStore : Type := String → Option SessionData

/-- Source `_is_expired`: `(now - session["last_seen"]) > SESSION_TTL`. -/
def isExpired (ttl : ℚ) (s : SessionData) (now : ℚ) : Bool :=
  ttl < now - s.last_seen

/-- Source `rotate_sid(old_sid)` from `core/sessions.py`.  The generated identifier
(`secrets.token_urlsafe(32)`) is passed in as `newSid`.  The source pops
`old_sid`, inserts a fresh record at the new identifier via `_create_session`,
and, when the old record existed, overwrites the fresh record field-by-field
with `session.update(existing)` followed by re-setting `created_at` from the
old record and `last_seen` to the current time — so the stored record is the
old record with `last_seen` reset.  Returns `(new_sid, record, store)`. -/
def rotate_sid (store : SessionStore) (old_sid newSid : String) (now : ℚ) :
    String × SessionData × SessionStore :=
  let popped : SessionStore := fun k => if k = old_sid then none else store k
  match store old_sid with
  | some ex =>
      let sess : SessionData := { ex with last_seen := now }
      (newSid, sess, fun k => if k = newSid then some sess else popped k)
  | none =>
      let sess : SessionData := ⟨now, now, none⟩
      (newSid, sess, fun k => if k = newSid then some sess else popped k)

/-- The state effect of `SessionMiddleware.dispatch`: resolve the `sid` cookie
(absent or empty is treated as no cookie, by Python truthiness); an unknown or
expired identifier (the expired record is popped) leads to `_create_session()`
with the generated identifier `freshSid`; a live session gets `last_seen`
refreshed.  Returns the resolved identifier and the updated store. -/
def sessionResolve (ttl : ℚ) (store : SessionStore) (cookie : Option String)
    (now : ℚ) (freshSid : String) : String × SessionStore :=
  let fresh : SessionData := ⟨now, now, none⟩
  if truthy cookie then
    let sid := cookie.getD ""
    match store sid with
    | some s =>
        if isExpired ttl s now then
          let popped : SessionStore := fun k => if k = sid then none else store k
          (freshSid, fun k => if k = freshSid then some fresh else popped k)
        else
          (sid, fun k => if k = sid then some { s with last_seen := now } else store k)
    | none => (freshSid, fun k => if k = freshSid then some fresh else store k)
  else
    (freshSid, fun k => if k = freshSid then some fresh else store k)

/-! ## Middleware composition (`backend/app.py`)

Starlette's `add_middleware` inserts the new middleware at the *front* of the
user-middleware list, and the stack is built so that the first list element is
the outermost wrapper, i.e. the one that sees the request first.
`@app.middleware("http")` is FastAPI sugar for
`add_middleware(BaseHTTPMiddleware, dispatch=fn)` and therefore also inserts at
the front.  So the middleware registered *last* in `app.py` runs *first* on the
request path. -/

/-- The stages of the request pipeline: the registered middlewares, the
route-level `require_csrf` dependency of `POST /api/chat`, and the handler. -/
inductive PipelineStage where
  | cors
  | session
  | antiReplay
  | rateLimit
  | logging
  | csrfSeed
  | csrfCheck
  | handler
  deriving DecidableEq, Repr

/-- Starlette `app.add_middleware`: insert at the front of the stack. -/
def addMiddleware (stack : List PipelineStage) (m : PipelineStage) : List PipelineStage :=
  m :: stack

/-- The registration sequence of `app.py` in source order: `CORSMiddleware`,
`SessionMiddleware`, `AntiReplayMiddleware`, `RateLimitMiddleware`, then the
two decorated middlewares `add_request_logging` and
`ensure_csrf_cookie_middleware`. -/
def registrationOrder : List PipelineStage :=
  [.cors, .session, .antiReplay, .rateLimit, .logging, .csrfSeed]

/-- The built user-middleware stack, outermost first. -/
def middlewareStack : List PipelineStage :=
  registrationOrder.foldl addMiddleware []

/-- Request-path execution order: middlewares outermost-first, then the
route's `require_csrf` dependency, then the handler. -/
def executionOrder : List PipelineStage :=
  middlewareStack ++ [.csrfCheck, .handler]

/-- The pipeline order asserted by the specification (Section 4.5), written
from the spec's words for comparison with `executionOrder`: logging wrapper →
session resolution → anti-replay → rate limit → handler-level CSRF check →
handler. -/
def specClaimedOrder : List PipelineStage :=
  [.logging, .session, .antiReplay, .rateLimit, .csrfCheck, .handler]

/-! ## The request pipeline as a state transformer

The shared mutable stores and the per-request behaviour of the stateful
middlewares around `POST /api/chat`, composed in the execution order derived
above (rate limit outermost of the three stateful middlewares, then
anti-replay, then session, then the `require_csrf` dependency, then the
handler).  The logging wrapper and the CSRF-cookie-seeding wrapper touch no
shared store and contribute no state; the handler is modelled as returning
HTTP 200 (its request-body validation is outside the guard pipeline).  A guard
rejection short-circuits: inner stages never run. -/

/-- The three module-level stores: `SESSIONS`, `NONCES`, `_RATE_LIMIT_STATE`. -/
structure AppState where
  sessions : SessionStore
  nonces : NonceStore
  rate : String → Option Bucket

/-- The parts of an incoming request the guards inspect. -/
structure Request where
  method : String
  client : Option String
  sidCookie : Option String
  csrfCookie : Option String
  csrfHeader : Option String
  tsHeader : Option String
  nonceHeader : Option String
  deriving DecidableEq, Repr

/-- Python `request.client.host if request.client else "unknown"`. -/
def Request.host (r : Request) : String := r.client.getD "unknown"

/-- The anti-replay view of a request. -/
def Request.replay (r : Request) : ReplayRequest :=
  ⟨r.method, r.tsHeader, r.nonceHeader⟩

/-- The middleware `RateLimitMiddleware.dispatch` as a layer: `none` passes the request on,
`some status` short-circuits.  Disabled entirely when `RATE_LIMIT_RPS <= 0`.
In both the admitted and the rejected branch the (refilled) record is stored
back into `_RATE_LIMIT_STATE`. -/
def rateLayer (cfg : RateConfig) (st : AppState) (req : Request) (now : ℚ) :
    Option ℕ × AppState :=
  if cfg.rps ≤ 0 then (none, st)
  else
    let d := rateDecide cfg (st.rate req.host) now
    let st' : AppState :=
      { st with rate := fun k => if k = req.host then some d.2 else st.rate k }
    if d.1 then (none, st') else (some 429, st')

/-- The middleware `AntiReplayMiddleware.dispatch` as a layer over the app state.  The
anti-replay middleware works with `now = int(time.time())`; instants are
non-negative in practice, so truncation coincides with the floor used here. -/
def replayLayer (W : ℤ) (st : AppState) (req : Request) (now : ℤ) :
    Option ℕ × AppState :=
  match antiReplayStep W st.nonces req.replay now with
  | (.admitted, ns) => (none, { st with nonces := ns })
  | (.rejected s _, ns) => (some s, { st with nonces := ns })

/-- The middleware `SessionMiddleware.dispatch` as a layer: it never short-circuits on the
request path (its cookie-setting happens on the response path). -/
def sessionLayer (ttl : ℚ) (st : AppState) (req : Request) (now : ℚ)
    (freshSid : String) : AppState :=
  { st with sessions := (sessionResolve ttl st.sessions req.sidCookie now freshSid).2 }

/-- The route-level `require_csrf` dependency: `none` passes,
`some 403` rejects (both `missing` and `mismatch` surface as HTTP 403). -/
def csrfStatus (req : Request) : Option ℕ :=
  match require_csrf req.method req.csrfCookie req.csrfHeader with
  | .pass => none
  | _ => some 403

/-- The full pipeline around `POST /api/chat`: returns the response status and
the final shared state. -/
def pipeline (cfg : RateConfig) (W : ℤ) (ttl : ℚ) (st : AppState) (req : Request)
    (now : ℚ) (freshSid : String) : ℕ × AppState :=
  match rateLayer cfg st req now with
  | (some s, st₁) => (s, st₁)
  | (none, st₁) =>
    match replayLayer W st₁ req ⌊now⌋ with
    | (some s, st₂) => (s, st₂)
    | (none, st₂) =>
      let st₃ := sessionLayer ttl st₂ req now freshSid
      match csrfStatus req with
      | some s => (s, st₃)
      | none => (200, st₃)

/-! # Theorems -/

/-- A value is truthy exactly when it is a present, non-empty string. -/
theorem truthy_eq_true (o : Option String) :
    truthy o = true ↔ ∃ s, o = some s ∧ s ≠ "" := by
  rcases o with _ | s <;> simp [truthy]

/-- C1, counterexample.  The spec's pipeline order (logging → session →
anti-replay → rate limit → CSRF → handler) is not the one the source composes:
in the execution order derived from `app.py`'s registration sequence the
anti-replay check runs *before* session resolution and the rate-limit check
runs *before* the anti-replay check, so in particular session resolution does
not complete before the anti-replay check, and restricting the execution order
to the spec's six stages does not give the spec's list. -/
theorem middleware_order_spec_mismatch :
    executionOrder.indexOf .antiReplay < executionOrder.indexOf .session ∧
    executionOrder.indexOf .rateLimit < executionOrder.indexOf .antiReplay ∧
    executionOrder.filter (fun g => specClaimedOrder.contains g) ≠ specClaimedOrder := by
  decide

/-- C1, amended.  For every request the pipeline executes its stages in the
fixed order: CSRF-cookie-seeding wrapper, logging wrapper (assigning the
correlation id), rate-limit check, anti-replay check (mutating only), session
resolution, CORS layer, handler-level CSRF check, handler; in particular the
rate-limit check completes before the anti-replay check and the anti-replay
check runs before session resolution. -/
theorem middleware_execution_order :
    executionOrder =
      [.csrfSeed, .logging, .rateLimit, .antiReplay, .session, .cors,
       .csrfCheck, .handler] ∧
    executionOrder.indexOf .logging < executionOrder.indexOf .rateLimit ∧
    executionOrder.indexOf .rateLimit < executionOrder.indexOf .antiReplay ∧
    executionOrder.indexOf .antiReplay < executionOrder.indexOf .session ∧
    executionOrder.indexOf .session < executionOrder.indexOf .csrfCheck ∧
    executionOrder.indexOf .csrfCheck < executionOrder.indexOf .handler := by
  decide

/-- C6, counterexample.  A POST whose `csrftoken` cookie and `X-CSRF-Token`
header are both present and equal (both the empty string) is claimed to pass,
but the code rejects it through the `missing` branch. -/
theorem csrf_present_equal_empty_rejected :
    (some "" : Option String).isSome = true ∧
    (some "" : Option String).isSome = true ∧
    require_csrf "POST" (some "") (some "") = .reject_missing ∧
    require_csrf "POST" (some "") (some "") ≠ .pass := by
  decide

/-- C6, amended.  The CSRF check applies only to mutating methods
(POST/PUT/PATCH/DELETE) — non-mutating requests always pass without
inspection.  For a mutating request it raises HTTP 403 with reason `missing`
iff the `csrftoken` cookie or the `X-CSRF-Token` header is absent *or empty*,
raises HTTP 403 with reason `mismatch` iff both are present and non-empty but
unequal under constant-time comparison, and passes iff both are present,
non-empty and equal. -/
theorem csrf_verify_characterization (method : String) (cookie header : Option String) :
    (method ∉ MUTATING_METHODS → require_csrf method cookie header = .pass) ∧
    (method ∈ MUTATING_METHODS →
      ((require_csrf method cookie header = .reject_missing ↔
          truthy cookie = false ∨ truthy header = false) ∧
       (require_csrf method cookie header = .reject_mismatch ↔
          truthy cookie = true ∧ truthy header = true ∧ cookie.getD "" ≠ header.getD "") ∧
       (require_csrf method cookie header = .pass ↔
          truthy cookie = true ∧ truthy header = true ∧ cookie.getD "" = header.getD ""))) := by
  unfold require_csrf
  split_ifs with h1 h2 h3 <;> simp_all
  rcases h2 with h | h <;> simp_all

/-- C6, witness for `csrf_verify_characterization` at concrete inputs:
a GET passes regardless of tokens, and a POST with distinct non-empty cookie
and header values is a mismatch. -/
theorem csrf_verify_characterization_witness :
    require_csrf "GET" none none = .pass ∧
    require_csrf "POST" (some "a") (some "b") = .reject_mismatch := by
  refine ⟨(csrf_verify_characterization "GET" none none).1 (by decide), ?_⟩
  exact ((csrf_verify_characterization "POST" (some "a") (some "b")).2
    (by decide)).2.1.mpr (by decide)

/-- C10.  For a mutating request, a `csrftoken` cookie or `X-CSRF-Token`
header that is present but equal to the empty string is rejected through the
`missing` branch, never through the constant-time comparison; the comparison
(whose outcomes are `mismatch` and `pass`) is only reached when both values
are present and non-empty. -/
theorem csrf_empty_value_missing_branch (method : String) (cookie header : Option String)
    (hm : method ∈ MUTATING_METHODS) :
    ((cookie = some "" ∨ header = some "") →
        require_csrf method cookie header = .reject_missing) ∧
    (require_csrf method cookie header = .reject_mismatch →
        ∃ c h, cookie = some c ∧ header = some h ∧ c ≠ "" ∧ h ≠ "") ∧
    (require_csrf method cookie header = .pass →
        ∃ c h, cookie = some c ∧ header = some h ∧ c ≠ "" ∧ h ≠ "") := by
  unfold require_csrf
  split_ifs with h1 h2 <;> simp_all
  all_goals
    obtain ⟨hc, hh⟩ := h1
    rw [truthy_eq_true] at hc hh
    obtain ⟨c, rfl, hc⟩ := hc
    obtain ⟨d, rfl, hd⟩ := hh
    simp_all

/-- C10, witness for `csrf_empty_value_missing_branch`: a POST with an empty
cookie value and a non-empty header hits the `missing` branch. -/
theorem csrf_empty_value_missing_branch_witness :
    require_csrf "POST" (some "") (some "x") = .reject_missing := by
  exact (csrf_empty_value_missing_branch "POST" (some "") (some "x") (by decide)).1
    (Or.inl rfl)

/-! ### Rate-limiter lemmas -/

/-- Unfolding lemma: a first-seen client gets a full bucket. -/
theorem rateObserve_none (cfg : RateConfig) (now : ℚ) :
    rateObserve cfg none now = ⟨cfg.burst, now⟩ := rfl

/-- Unfolding lemma: the refill step on an existing bucket. -/
theorem rateObserve_some (cfg : RateConfig) (b : Bucket) (now : ℚ) :
    rateObserve cfg (some b) now =
      ⟨min cfg.burst (b.tokens + max 0 (now - b.ts) * cfg.rps), now⟩ := rfl

/-- Unfolding lemma: the admission decision after the refill step. -/
theorem rateDecide_eq (cfg : RateConfig) (rec : Option Bucket) (now : ℚ) :
    rateDecide cfg rec now =
      if (rateObserve cfg rec now).tokens < 1 then (false, rateObserve cfg rec now)
      else (true, ⟨(rateObserve cfg rec now).tokens - 1, (rateObserve cfg rec now).ts⟩) := rfl

/-- C4, counterexample.  A bucket holding half a token at instant 0 receives a
request at instant 1/100 and is rejected (429), but the stored bucket is
`⟨3/5, 1/100⟩`, not the previous `⟨1/2, 0⟩`: both the token count and the
last-observation timestamp changed, refuting "neither the token count nor the
last-observation timestamp of the bucket differs". -/
theorem rate_reject_changes_bucket :
    rateDecide defaultRateConfig (some ⟨1/2, 0⟩) (1/100) = (false, ⟨3/5, 1/100⟩) ∧
    ((3/5 : ℚ) ≠ 1/2 ∧ (1/100 : ℚ) ≠ 0) := by
  constructor
  · norm_num [rateDecide, rateObserve, defaultRateConfig, min_def, max_def]
  · norm_num

/-- C4, amended.  For every request rejected by the rate limiter with HTTP 429
(`tokens < 1.0` after refill), no token is consumed: the stored bucket is
exactly the refilled observation (refill plus timestamp update), with no
decrement applied, so the client's token count never decreases on a rejected
request (given a non-negative rate and a token count within the burst cap). -/
theorem rate_reject_no_token_consumed (cfg : RateConfig) (rec : Option Bucket) (now : ℚ)
    (h : (rateDecide cfg rec now).1 = false) :
    (rateDecide cfg rec now).2 = rateObserve cfg rec now ∧
    (∀ b, rec = some b → b.tokens ≤ cfg.burst → 0 ≤ cfg.rps →
      b.tokens ≤ (rateDecide cfg rec now).2.tokens) := by
  rw [rateDecide_eq] at h ⊢
  split_ifs at h ⊢ with hlt
  refine ⟨rfl, ?_⟩
  rintro b rfl hb hr
  rw [rateObserve_some]
  exact le_min hb (le_add_of_nonneg_right (mul_nonneg (le_max_left 0 _) hr))

/-- C4, witness for `rate_reject_no_token_consumed`: the rejected request of
the counterexample consumed no token (3/5 ≥ 1/2). -/
theorem rate_reject_no_token_consumed_witness :
    (rateDecide defaultRateConfig (some ⟨1/2, 0⟩) (1/100)).2 =
      rateObserve defaultRateConfig (some ⟨1/2, 0⟩) (1/100) ∧
    (1/2 : ℚ) ≤ (rateDecide defaultRateConfig (some ⟨1/2, 0⟩) (1/100)).2.tokens := by
  have h := rate_reject_no_token_consumed defaultRateConfig (some ⟨1/2, 0⟩) (1/100)
    (by norm_num [rateDecide, rateObserve, defaultRateConfig, min_def, max_def])
  exact ⟨h.1, h.2 ⟨1/2, 0⟩ rfl (by norm_num [defaultRateConfig])
    (by norm_num [defaultRateConfig])⟩

/-- C9.  The rate limiter is robust to the wall clock moving backwards: the
elapsed time used for refill is clamped to be non-negative, so a request
observed at or before the bucket's recorded timestamp refills zero tokens;
a first-seen bucket is within bounds; and every dispatch (admitted or
rejected) keeps the token count within `[0, burst]`. -/
theorem rate_bucket_bounds (cfg : RateConfig) (h0 : 0 ≤ cfg.rps) (hb : 0 ≤ cfg.burst) :
    (∀ (b : Bucket) (now : ℚ), now ≤ b.ts → b.tokens ≤ cfg.burst →
        rateObserve cfg (some b) now = ⟨b.tokens, now⟩) ∧
    (∀ now : ℚ, 0 ≤ (rateObserve cfg none now).tokens ∧
        (rateObserve cfg none now).tokens ≤ cfg.burst) ∧
    (∀ (rec : Option Bucket) (now : ℚ), (∀ b, rec = some b → 0 ≤ b.tokens) →
        0 ≤ (rateDecide cfg rec now).2.tokens ∧
        (rateDecide cfg rec now).2.tokens ≤ cfg.burst) := by
  refine ⟨?_, ?_, ?_⟩
  · intro b now hts htok
    rw [rateObserve_some, max_eq_left (by linarith : now - b.ts ≤ 0)]
    simp [min_eq_right htok]
  · intro now
    simp [rateObserve_none, hb]
  · intro rec now hrec
    have hobs : 0 ≤ (rateObserve cfg rec now).tokens ∧
        (rateObserve cfg rec now).tokens ≤ cfg.burst := by
      rcases rec with _ | b
      · simp [rateObserve_none, hb]
      · have h1 : 0 ≤ b.tokens := hrec b rfl
        have h2 : 0 ≤ max 0 (now - b.ts) * cfg.rps :=
          mul_nonneg (le_max_left 0 _) h0
        rw [rateObserve_some]
        exact ⟨le_min hb (by linarith), min_le_left _ _⟩
    rw [rateDecide_eq]
    split_ifs with hlt
    · exact hobs
    · push_neg at hlt
      constructor
      · show (0 : ℚ) ≤ (rateObserve cfg rec now).tokens - 1
        linarith
      · show (rateObserve cfg rec now).tokens - 1 ≤ cfg.burst
        linarith [hobs.2]

/-- C9, witness for `rate_bucket_bounds` at the default configuration, with a
bucket observed while the clock stands one second earlier than its
timestamp: zero refill, and bounds hold. -/
theorem rate_bucket_bounds_witness :
    rateObserve defaultRateConfig (some ⟨5, 10⟩) 9 = ⟨5, 9⟩ ∧
    (0 ≤ (rateDecide defaultRateConfig (some ⟨5, 10⟩) 9).2.tokens ∧
      (rateDecide defaultRateConfig (some ⟨5, 10⟩) 9).2.tokens ≤ defaultRateConfig.burst) := by
  have h := rate_bucket_bounds defaultRateConfig (by norm_num [defaultRateConfig])
    (by norm_num [defaultRateConfig])
  exact ⟨h.1 ⟨5, 10⟩ 9 (by norm_num) (by norm_num [defaultRateConfig]),
    h.2.2 (some ⟨5, 10⟩) 9 (by intro b hb; cases hb; norm_num)⟩

/-- After `k ≤ burst` immediate requests from a full bucket (all at the same
instant, zero elapsed time), the bucket holds `burst - k` tokens. -/
theorem rateIter_tokens (cfg : RateConfig) (now : ℚ) (n : ℕ) (hn : (n : ℚ) = cfg.burst) :
    ∀ k : ℕ, k ≤ n → rateIter cfg ⟨cfg.burst, now⟩ now k = ⟨cfg.burst - k, now⟩ := by
  intro k
  induction k with
  | zero => intro _; simp [rateIter]
  | succ k ih =>
    intro hk
    have hk' : k ≤ n := Nat.le_of_succ_le hk
    have hkq : (k : ℚ) + 1 ≤ cfg.burst := by
      rw [← hn]; exact_mod_cast hk
    rw [rateIter, ih hk', rateDecide_eq, rateObserve_some]
    have hobs : min cfg.burst (cfg.burst - (k : ℚ) + max 0 (now - now) * cfg.rps)
        = cfg.burst - (k : ℚ) := by
      have hmax : max 0 (now - now) = 0 := by simp
      have hk0 : (0 : ℚ) ≤ (k : ℚ) := Nat.cast_nonneg k
      rw [hmax, zero_mul, add_zero]
      exact min_eq_right (by linarith)
    simp only [hobs]
    rw [if_neg (by push_neg; linarith)]
    push_cast
    ring_nf

/-- C5.  Token bucket per client: a first-seen client starts with a full
burst `B = 2 × rate`; starting from a full bucket, each of the first `B`
immediate (zero-elapsed-time) requests is admitted (each consuming exactly one
token, as `rateIter_tokens` shows), the `(B+1)`-th is rejected, and after
waiting `1/rate` seconds exactly one more request is admitted — the request
right after that one is rejected again. -/
theorem rate_burst_exhaustion (cfg : RateConfig) (now : ℚ) (n : ℕ)
    (hrps : 0 < cfg.rps) (hburst : cfg.burst = 2 * cfg.rps) (hn : (n : ℚ) = cfg.burst) :
    rateObserve cfg none now = ⟨cfg.burst, now⟩ ∧
    (∀ k : ℕ, k < n →
       (rateDecide cfg (some (rateIter cfg ⟨cfg.burst, now⟩ now k)) now).1 = true) ∧
    (rateDecide cfg (some (rateIter cfg ⟨cfg.burst, now⟩ now n)) now).1 = false ∧
    rateDecide cfg (some (rateIter cfg ⟨cfg.burst, now⟩ now n)) (now + 1 / cfg.rps) =
      (true, ⟨0, now + 1 / cfg.rps⟩) ∧
    (rateDecide cfg (some (⟨0, now + 1 / cfg.rps⟩ : Bucket)) (now + 1 / cfg.rps)).1 = false := by
  have hb0 : (0 : ℚ) < cfg.burst := by linarith
  have hn1 : (1 : ℚ) ≤ (n : ℚ) := by
    have : n ≠ 0 := by rintro rfl; simp at hn; linarith
    exact_mod_cast Nat.one_le_iff_ne_zero.mpr this
  have hb1 : (1 : ℚ) ≤ cfg.burst := by rw [← hn]; exact hn1
  refine ⟨rateObserve_none cfg now, ?_, ?_, ?_, ?_⟩
  · intro k hk
    rw [rateIter_tokens cfg now n hn k (Nat.le_of_lt hk), rateDecide_eq, rateObserve_some]
    have hkq : (k : ℚ) + 1 ≤ cfg.burst := by rw [← hn]; exact_mod_cast hk
    have hk0 : (0 : ℚ) ≤ (k : ℚ) := Nat.cast_nonneg k
    have hobs : min cfg.burst (cfg.burst - (k : ℚ) + max 0 (now - now) * cfg.rps)
        = cfg.burst - (k : ℚ) := by
      rw [show max 0 (now - now) = 0 by simp, zero_mul, add_zero]
      exact min_eq_right (by linarith)
    simp only [hobs]
    rw [if_neg (by push_neg; linarith)]
  · rw [rateIter_tokens cfg now n hn n le_rfl, rateDecide_eq, rateObserve_some]
    have hobs : min cfg.burst (cfg.burst - (n : ℚ) + max 0 (now - now) * cfg.rps)
        = 0 := by
      rw [show max 0 (now - now) = 0 by simp, zero_mul, add_zero, hn,
        show cfg.burst - cfg.burst = (0:ℚ) by ring]
      exact min_eq_right (le_of_lt hb0)
    simp only [hobs]
    rw [if_pos (by norm_num)]
  · rw [rateIter_tokens cfg now n hn n le_rfl, rateDecide_eq, rateObserve_some]
    have hel : max 0 (now + 1 / cfg.rps - now) = 1 / cfg.rps := by
      rw [show now + 1 / cfg.rps - now = 1 / cfg.rps by ring]
      exact max_eq_right (by positivity)
    have hobs : min cfg.burst (cfg.burst - (n : ℚ) + max 0 (now + 1 / cfg.rps - now) * cfg.rps)
        = 1 := by
      rw [hel, hn]
      have : (1 / cfg.rps) * cfg.rps = 1 := by field_simp
      rw [this]
      rw [show cfg.burst - cfg.burst + 1 = (1:ℚ) by ring]
      exact min_eq_right hb1
    simp only [hobs]
    rw [if_neg (by norm_num)]
    norm_num
  · rw [rateDecide_eq, rateObserve_some]
    have hobs : min cfg.burst ((0:ℚ) + max 0 (now + 1 / cfg.rps - (now + 1 / cfg.rps)) * cfg.rps)
        = 0 := by
      simp [le_of_lt hb0]
    simp only [hobs]
    rw [if_pos (by norm_num)]

/-- C5, witness for `rate_burst_exhaustion` at the default configuration
(rate 10/s, burst 20) starting at instant 0. -/
theorem rate_burst_exhaustion_witness :
    rateObserve defaultRateConfig none 0 = ⟨defaultRateConfig.burst, 0⟩ ∧
    (∀ k : ℕ, k < 20 →
       (rateDecide defaultRateConfig
         (some (rateIter defaultRateConfig ⟨defaultRateConfig.burst, 0⟩ 0 k)) 0).1 = true) ∧
    (rateDecide defaultRateConfig
      (some (rateIter defaultRateConfig ⟨defaultRateConfig.burst, 0⟩ 0 20)) 0).1 = false ∧
    rateDecide defaultRateConfig
      (some (rateIter defaultRateConfig ⟨defaultRateConfig.burst, 0⟩ 0 20))
      (0 + 1 / defaultRateConfig.rps) = (true, ⟨0, 0 + 1 / defaultRateConfig.rps⟩) ∧
    (rateDecide defaultRateConfig (some (⟨0, 0 + 1 / defaultRateConfig.rps⟩ : Bucket))
      (0 + 1 / defaultRateConfig.rps)).1 = false := by
  exact rate_burst_exhaustion defaultRateConfig 0 20 (by norm_num [defaultRateConfig])
    (by norm_num [defaultRateConfig]) (by norm_num [defaultRateConfig])

/-! ### Anti-replay and session theorems -/

/-- C7.  For every mutating request reaching the anti-replay guard with both
`X-TS` and `X-Nonce` headers present (present in the sense the guard tests:
non-empty): an `X-TS` that does not parse as an integer is rejected with HTTP
401 (`invalid_ts`); a parsed timestamp with `|now − ts| > W` is rejected with
HTTP 401 (`stale_ts`) — both for timestamps too far in the past and too far in
the future; and a request with `|now − ts| ≤ W` passes the freshness check
(its outcome is admission or the later `nonce_reuse` rejection, never
`invalid_ts`/`stale_ts`). -/
theorem antiReplay_freshness (W : ℤ) (st : NonceStore) (r : ReplayRequest) (now : ℤ)
    (hm : r.method ∈ MUTATING_METHODS)
    (hts : truthy r.tsHeader = true) (hn : truthy r.nonceHeader = true) :
    (pyInt (r.tsHeader.getD "") = none →
       antiReplayStep W st r now = (.rejected 401 .invalid_ts, st)) ∧
    (∀ v, pyInt (r.tsHeader.getD "") = some v →
       (W < |now - v| → antiReplayStep W st r now = (.rejected 401 .stale_ts, st)) ∧
       (v < now - W → (antiReplayStep W st r now).1 = .rejected 401 .stale_ts) ∧
       (now + W < v → (antiReplayStep W st r now).1 = .rejected 401 .stale_ts) ∧
       (|now - v| ≤ W →
          (antiReplayStep W st r now).1 = .admitted ∨
          (antiReplayStep W st r now).1 = .rejected 401 .nonce_reuse)) := by
  have habs1 : ∀ v : ℤ, v < now - W → W < |now - v| := fun v h =>
    lt_of_lt_of_le (by linarith) (le_abs_self _)
  have habs2 : ∀ v : ℤ, now + W < v → W < |now - v| := fun v h =>
    lt_of_lt_of_le (by linarith [neg_le_abs (now - v)]) le_rfl
  refine ⟨fun hp => ?_, fun v hp => ⟨fun hst => ?_, fun hlt => ?_, fun hlt => ?_, fun hle => ?_⟩⟩
  · simp [antiReplayStep, hm, hts, hn, hp]
  · simp [antiReplayStep, hm, hts, hn, hp, hst]
  · simp [antiReplayStep, hm, hts, hn, hp, habs1 v hlt]
  · simp [antiReplayStep, hm, hts, hn, hp, habs2 v hlt]
  · simp only [antiReplayStep, hp]
    rw [if_neg (by simpa using hm), if_neg (by simp [hts, hn]), if_neg (not_lt.mpr hle)]
    rcases hpn : purgeNonces st now (r.nonceHeader.getD "") with _ | e <;> simp [hpn]

/-- C7, witness for `antiReplay_freshness`: a POST carrying the unparsable
timestamp header `"abc"` and a nonce, against an empty store at instant 0, is
rejected with 401 `invalid_ts`. -/
theorem antiReplay_freshness_witness :
    antiReplayStep 300 (fun _ => none) ⟨"POST", some "abc", some "n1"⟩ 0
      = (.rejected 401 .invalid_ts, fun _ => none) := by
  exact (antiReplay_freshness 300 (fun _ => none) ⟨"POST", some "abc", some "n1"⟩ 0
    (by decide) (by decide) (by decide)).1 rfl

/-- C8.  `rotate_sid(old)` (with the freshly generated identifier `newSid`,
which is distinct from `old` by construction of the 256-bit random token)
returns `newSid ≠ old`; afterwards `old` is not resolvable in the store and
`newSid` maps to the returned record; the returned record copies the old
record's attributes (`user_id`, `created_at`) with `last_seen` reset to now
when the old record existed, and is a fresh record with
`created_at = last_seen = now` when it did not. -/
theorem rotate_sid_spec (store : SessionStore) (old_sid newSid : String) (now : ℚ)
    (hfresh : newSid ≠ old_sid) :
    (rotate_sid store old_sid newSid now).1 = newSid ∧
    (rotate_sid store old_sid newSid now).1 ≠ old_sid ∧
    (rotate_sid store old_sid newSid now).2.2 old_sid = none ∧
    (rotate_sid store old_sid newSid now).2.2 newSid =
      some (rotate_sid store old_sid newSid now).2.1 ∧
    (∀ ex, store old_sid = some ex →
      (rotate_sid store old_sid newSid now).2.1 = { ex with last_seen := now }) ∧
    (store old_sid = none →
      (rotate_sid store old_sid newSid now).2.1 = ⟨now, now, none⟩) := by
  unfold rotate_sid
  rcases h : store old_sid with _ | ex <;>
    simp_all [hfresh, Ne.symm hfresh]

/-- C8, witness for `rotate_sid_spec`: rotating the identifier `"old"`, whose
record is `⟨1, 2, some "u"⟩`, at instant 5 with fresh identifier `"new"`. -/
theorem rotate_sid_spec_witness :
    (rotate_sid (fun k => if k = "old" then some ⟨1, 2, some "u"⟩ else none)
      "old" "new" 5).1 = "new" ∧
    (rotate_sid (fun k => if k = "old" then some ⟨1, 2, some "u"⟩ else none)
      "old" "new" 5).2.2 "old" = none ∧
    (rotate_sid (fun k => if k = "old" then some ⟨1, 2, some "u"⟩ else none)
      "old" "new" 5).2.1 = ⟨1, 5, some "u"⟩ := by
  have h := rotate_sid_spec (fun k => if k = "old" then some ⟨1, 2, some "u"⟩ else none)
    "old" "new" 5 (by decide)
  exact ⟨h.1, h.2.2.1, by rw [h.2.2.2.2.1 ⟨1, 2, some "u"⟩ (by simp)]⟩

/-! ### Branch lemmas for the anti-replay middleware -/

/-- Non-mutating methods pass the anti-replay middleware untouched. -/
theorem antiReplayStep_not_mutating (W : ℤ) (st : NonceStore) (r : ReplayRequest) (now : ℤ)
    (h : r.method ∉ MUTATING_METHODS) :
    antiReplayStep W st r now = (.admitted, st) := by
  simp [antiReplayStep, h]

/-- A mutating request with a falsy `X-TS` or `X-Nonce` header is rejected
with 401 `missing_headers`, the store untouched. -/
theorem antiReplayStep_missing (W : ℤ) (st : NonceStore) (r : ReplayRequest) (now : ℤ)
    (hm : r.method ∈ MUTATING_METHODS)
    (h : truthy r.tsHeader = false ∨ truthy r.nonceHeader = false) :
    antiReplayStep W st r now = (.rejected 401 .missing_headers, st) := by
  rcases h with h | h <;> simp [antiReplayStep, hm, h]

/-- An unparsable `X-TS` is rejected with 401 `invalid_ts`, the store
untouched. -/
theorem antiReplayStep_invalid (W : ℤ) (st : NonceStore) (r : ReplayRequest) (now : ℤ)
    (hm : r.method ∈ MUTATING_METHODS)
    (hts : truthy r.tsHeader = true) (hn : truthy r.nonceHeader = true)
    (hp : pyInt (r.tsHeader.getD "") = none) :
    antiReplayStep W st r now = (.rejected 401 .invalid_ts, st) := by
  simp [antiReplayStep, hm, hts, hn, hp]

/-- A timestamp outside the freshness window is rejected with 401 `stale_ts`,
the store untouched. -/
theorem antiReplayStep_stale (W : ℤ) (st : NonceStore) (r : ReplayRequest) (now : ℤ) (v : ℤ)
    (hm : r.method ∈ MUTATING_METHODS)
    (hts : truthy r.tsHeader = true) (hn : truthy r.nonceHeader = true)
    (hp : pyInt (r.tsHeader.getD "") = some v) (hst : W < |now - v|) :
    antiReplayStep W st r now = (.rejected 401 .stale_ts, st) := by
  simp [antiReplayStep, hm, hts, hn, hp, hst]

/-- A nonce still present after the lazy purge is rejected with 401
`nonce_reuse`; the store is the purged one. -/
theorem antiReplayStep_reuse (W : ℤ) (st : NonceStore) (r : ReplayRequest) (now : ℤ) (v e : ℤ)
    (hm : r.method ∈ MUTATING_METHODS)
    (hts : truthy r.tsHeader = true) (hn : truthy r.nonceHeader = true)
    (hp : pyInt (r.tsHeader.getD "") = some v) (hst : |now - v| ≤ W)
    (hpn : purgeNonces st now (r.nonceHeader.getD "") = some e) :
    antiReplayStep W st r now = (.rejected 401 .nonce_reuse, purgeNonces st now) := by
  simp only [antiReplayStep, hp]
  rw [if_neg (by simpa using hm), if_neg (by simp [hts, hn]), if_neg (not_lt.mpr hst)]
  simp [hpn]

/-- A fresh, unseen nonce is admitted and recorded with expiry `now + W` in
the purged store. -/
theorem antiReplayStep_fresh (W : ℤ) (st : NonceStore) (r : ReplayRequest) (now : ℤ) (v : ℤ)
    (hm : r.method ∈ MUTATING_METHODS)
    (hts : truthy r.tsHeader = true) (hn : truthy r.nonceHeader = true)
    (hp : pyInt (r.tsHeader.getD "") = some v) (hst : |now - v| ≤ W)
    (hpn : purgeNonces st now (r.nonceHeader.getD "") = none) :
    antiReplayStep W st r now =
      (.admitted, fun k => if k = r.nonceHeader.getD "" then some (now + W)
        else purgeNonces st now k) := by
  simp only [antiReplayStep, hp]
  rw [if_neg (by simpa using hm), if_neg (by simp [hts, hn]), if_neg (not_lt.mpr hst)]
  simp [hpn]

/-- The purge keeps a record whose expiry has not passed. -/
theorem purgeNonces_keep (st : NonceStore) (now : ℤ) (n : String) (e : ℤ)
    (hst : st n = some e) (h : now < e) :
    purgeNonces st now n = some e := by
  simp [purgeNonces, hst, not_le.mpr h]

/-- A nonce record with expiry `e` survives any anti-replay step taken at an
instant before `e`: rejections either leave the store alone or only purge
expired records, and an admission can only register a different nonce (the
same nonce would have been rejected as a reuse). -/
theorem nonce_persist (W : ℤ) (st : NonceStore) (n : String) (e : ℤ)
    (hst : st n = some e) (r : ReplayRequest) (u : ℤ) (hu : u < e) :
    (antiReplayStep W st r u).2 n = some e := by
  have hpn : purgeNonces st u n = some e := purgeNonces_keep st u n e hst hu
  by_cases hm : r.method ∈ MUTATING_METHODS
  · by_cases hts : truthy r.tsHeader = true
    · by_cases hnn : truthy r.nonceHeader = true
      · rcases hp : pyInt (r.tsHeader.getD "") with _ | v
        · rw [antiReplayStep_invalid W st r u hm hts hnn hp]; exact hst
        · by_cases hstale : W < |u - v|
          · rw [antiReplayStep_stale W st r u v hm hts hnn hp hstale]; exact hst
          · rcases hq : purgeNonces st u (r.nonceHeader.getD "") with _ | e'
            · rw [antiReplayStep_fresh W st r u v hm hts hnn hp (not_lt.mp hstale) hq]
              have hne : n ≠ r.nonceHeader.getD "" := by
                intro h; rw [h] at hpn; rw [hq] at hpn; exact Option.noConfusion hpn
              simp [hne, hpn]
            · rw [antiReplayStep_reuse W st r u v e' hm hts hnn hp (not_lt.mp hstale) hq]
              exact hpn
      · rw [antiReplayStep_missing W st r u hm
          (Or.inr (Bool.eq_false_iff.mpr hnn))]; exact hst
    · rw [antiReplayStep_missing W st r u hm
        (Or.inl (Bool.eq_false_iff.mpr hts))]; exact hst
  · rw [antiReplayStep_not_mutating W st r u hm]; exact hst

/-- Lemma `nonce_persist` extended over a whole sequence of requests, all arriving
before the record's expiry. -/
theorem nonce_persist_run (W : ℤ) (n : String) (e : ℤ) :
    ∀ (trace : List (ReplayRequest × ℤ)) (st : NonceStore),
      st n = some e → (∀ p ∈ trace, p.2 < e) → runReplay W st trace n = some e := by
  intro trace
  induction trace with
  | nil => intro st hst _; exact hst
  | cons p rest ih =>
    intro st hst htr
    rw [runReplay]
    exact ih _ (nonce_persist W st n e hst p.1 p.2 (htr p (by simp)))
      (fun q hq => htr q (by simp [hq]))

/-- An admitted mutating request carrying nonce `n` has a non-empty `n` and
leaves the record `n ↦ now + W` in the store. -/
theorem antiReplayStep_admitted_registers (W : ℤ) (st : NonceStore) (r : ReplayRequest)
    (now : ℤ) (n : String) (hm : r.method ∈ MUTATING_METHODS) (hn : r.nonceHeader = some n)
    (hadm : (antiReplayStep W st r now).1 = .admitted) :
    n ≠ "" ∧ (antiReplayStep W st r now).2 n = some (now + W) := by
  by_cases hts : truthy r.tsHeader = true
  · by_cases hnn : truthy r.nonceHeader = true
    · have hne : n ≠ "" := by
        rw [hn] at hnn; simpa [truthy] using hnn
      rcases hp : pyInt (r.tsHeader.getD "") with _ | v
      · rw [antiReplayStep_invalid W st r now hm hts hnn hp] at hadm; cases hadm
      · by_cases hstale : W < |now - v|
        · rw [antiReplayStep_stale W st r now v hm hts hnn hp hstale] at hadm; cases hadm
        · rcases hq : purgeNonces st now (r.nonceHeader.getD "") with _ | e'
          · rw [antiReplayStep_fresh W st r now v hm hts hnn hp (not_lt.mp hstale) hq]
            exact ⟨hne, by simp [hn]⟩
          · rw [antiReplayStep_reuse W st r now v e' hm hts hnn hp (not_lt.mp hstale) hq]
              at hadm
            cases hadm
    · rw [antiReplayStep_missing W st r now hm
        (Or.inr (Bool.eq_false_iff.mpr hnn))] at hadm; cases hadm
  · rw [antiReplayStep_missing W st r now hm
      (Or.inl (Bool.eq_false_iff.mpr hts))] at hadm; cases hadm

/-- C3.  For any nonce `n` and window `W`: a mutating request carrying `n`
admitted at time `t` leaves the record `n ↦ t + W`; after any further requests
all arriving strictly before `t + W`, every mutating request carrying `n` at a
time strictly within `W` seconds of `t` is rejected with HTTP 401; and at any
time `t + W` or later the lazy purge removes the record, so a request reusing
`n` with a fresh, parsable timestamp is admitted again. -/
theorem nonce_replay_window (W : ℤ) (st₀ : NonceStore) (req₀ : ReplayRequest) (t : ℤ)
    (n : String) (hn₀ : req₀.nonceHeader = some n) (hm₀ : req₀.method ∈ MUTATING_METHODS)
    (hadm : (antiReplayStep W st₀ req₀ t).1 = .admitted)
    (trace : List (ReplayRequest × ℤ)) (htr : ∀ p ∈ trace, p.2 < t + W) :
    (antiReplayStep W st₀ req₀ t).2 n = some (t + W) ∧
    (∀ (r : ReplayRequest) (u : ℤ), r.method ∈ MUTATING_METHODS → r.nonceHeader = some n →
       u < t + W →
       ∃ reason, (antiReplayStep W (runReplay W (antiReplayStep W st₀ req₀ t).2 trace) r u).1
         = .rejected 401 reason) ∧
    (∀ (r : ReplayRequest) (u : ℤ) (s : String) (v : ℤ),
       r.method ∈ MUTATING_METHODS → r.nonceHeader = some n → t + W ≤ u →
       r.tsHeader = some s → s ≠ "" → pyInt s = some v → |u - v| ≤ W →
       (antiReplayStep W (runReplay W (antiReplayStep W st₀ req₀ t).2 trace) r u).1
         = .admitted) := by
  obtain ⟨hne, hreg⟩ :=
    antiReplayStep_admitted_registers W st₀ req₀ t n hm₀ hn₀ hadm
  have hst2 : runReplay W (antiReplayStep W st₀ req₀ t).2 trace n = some (t + W) :=
    nonce_persist_run W n (t + W) trace _ hreg htr
  set st₂ := runReplay W (antiReplayStep W st₀ req₀ t).2 trace with hst₂def
  refine ⟨hreg, ?_, ?_⟩
  · intro r u hm hn hu
    have hnn : truthy r.nonceHeader = true := by rw [hn]; simpa [truthy] using hne
    by_cases hts : truthy r.tsHeader = true
    · rcases hp : pyInt (r.tsHeader.getD "") with _ | v
      · exact ⟨.invalid_ts, by rw [antiReplayStep_invalid W st₂ r u hm hts hnn hp]⟩
      · by_cases hstale : W < |u - v|
        · exact ⟨.stale_ts, by rw [antiReplayStep_stale W st₂ r u v hm hts hnn hp hstale]⟩
        · have hq : purgeNonces st₂ u (r.nonceHeader.getD "") = some (t + W) := by
            rw [hn]
            exact purgeNonces_keep st₂ u n (t + W) hst2 hu
          exact ⟨.nonce_reuse, by
            rw [antiReplayStep_reuse W st₂ r u v (t + W) hm hts hnn hp (not_lt.mp hstale) hq]⟩
    · exact ⟨.missing_headers, by
        rw [antiReplayStep_missing W st₂ r u hm (Or.inl (Bool.eq_false_iff.mpr hts))]⟩
  · intro r u s v hm hn hu hs hsne hp habs
    have hnn : truthy r.nonceHeader = true := by rw [hn]; simpa [truthy] using hne
    have hts : truthy r.tsHeader = true := by rw [hs]; simpa [truthy] using hsne
    have hq : purgeNonces st₂ u (r.nonceHeader.getD "") = none := by
      rw [hn]
      simp [purgeNonces, hst2, hu]
    have hp' : pyInt (r.tsHeader.getD "") = some v := by rw [hs]; exact hp
    rw [antiReplayStep_fresh W st₂ r u v hm hts hnn hp' habs hq]

/-- C3, witness for `nonce_replay_window`: nonce `"n1"` admitted at instant 0
against an empty store with `W = 300`, followed by an unrelated request with
nonce `"n2"` at instant 3. -/
theorem nonce_replay_window_witness :
    (antiReplayStep 300 (fun _ => none) ⟨"POST", some "0", some "n1"⟩ 0).2 "n1" = some 300 ∧
    (∀ (r : ReplayRequest) (u : ℤ), r.method ∈ MUTATING_METHODS → r.nonceHeader = some "n1" →
       u < 0 + 300 →
       ∃ reason, (antiReplayStep 300 (runReplay 300
         (antiReplayStep 300 (fun _ => none) ⟨"POST", some "0", some "n1"⟩ 0).2
         [(⟨"POST", some "3", some "n2"⟩, 3)]) r u).1 = .rejected 401 reason) ∧
    (∀ (r : ReplayRequest) (u : ℤ) (s : String) (v : ℤ),
       r.method ∈ MUTATING_METHODS → r.nonceHeader = some "n1" → 0 + 300 ≤ u →
       r.tsHeader = some s → s ≠ "" → pyInt s = some v → |u - v| ≤ 300 →
       (antiReplayStep 300 (runReplay 300
         (antiReplayStep 300 (fun _ => none) ⟨"POST", some "0", some "n1"⟩ 0).2
         [(⟨"POST", some "3", some "n2"⟩, 3)]) r u).1 = .admitted) := by
  exact nonce_replay_window 300 (fun _ => none) ⟨"POST", some "0", some "n1"⟩ 0 "n1"
    rfl (by decide) rfl [(⟨"POST", some "3", some "n2"⟩, 3)] (by decide)

/-! ### Pipeline state-effect lemmas -/

/-- A rejected rate-limit decision stores the bare refilled observation. -/
theorem rateDecide_false (cfg : RateConfig) (rec : Option Bucket) (now : ℚ)
    (h : (rateDecide cfg rec now).1 = false) :
    rateDecide cfg rec now = (false, rateObserve cfg rec now) := by
  rw [rateDecide_eq] at h ⊢
  split_ifs at h ⊢ with hlt
  rfl

/-- The purge introduces no new nonce records. -/
theorem purgeNonces_none (st : NonceStore) (now : ℤ) (k : String) (h : st k = none) :
    purgeNonces st now k = none := by
  simp [purgeNonces, h]

/-- The check `require_csrf` only rejects mutating methods. -/
theorem require_csrf_ne_pass_mutating (method : String) (cookie header : Option String)
    (h : require_csrf method cookie header ≠ .pass) : method ∈ MUTATING_METHODS := by
  by_contra hm
  exact h (by simp [require_csrf, hm])

/-- A short-circuit from the `require_csrf` dependency is an HTTP 403 on a
mutating request. -/
theorem csrfStatus_some (req : Request) (s : ℕ) (h : csrfStatus req = some s) :
    s = 403 ∧ req.method ∈ MUTATING_METHODS := by
  unfold csrfStatus at h
  rcases hr : require_csrf req.method req.csrfCookie req.csrfHeader with _ | _ | _ <;>
    rw [hr] at h
  · cases h
  · exact ⟨by cases h; rfl, require_csrf_ne_pass_mutating _ _ _ (by rw [hr]; simp)⟩
  · exact ⟨by cases h; rfl, require_csrf_ne_pass_mutating _ _ _ (by rw [hr]; simp)⟩

/-- Every anti-replay rejection carries status 401 and leaves the nonce store
either untouched or merely purged of expired records. -/
theorem antiReplayStep_rejected_cases (W : ℤ) (st : NonceStore) (r : ReplayRequest)
    (now : ℤ) (s : ℕ) (ρ : ReplayReason) (ns : NonceStore)
    (h : antiReplayStep W st r now = (.rejected s ρ, ns)) :
    s = 401 ∧ (ns = st ∨ ns = purgeNonces st now) := by
  by_cases hm : r.method ∈ MUTATING_METHODS
  · by_cases hts : truthy r.tsHeader = true
    · by_cases hnn : truthy r.nonceHeader = true
      · rcases hp : pyInt (r.tsHeader.getD "") with _ | v
        · rw [antiReplayStep_invalid W st r now hm hts hnn hp] at h
          simp only [Prod.mk.injEq, ReplayOutcome.rejected.injEq] at h
          exact ⟨h.1.1.symm, Or.inl h.2.symm⟩
        · by_cases hstale : W < |now - v|
          · rw [antiReplayStep_stale W st r now v hm hts hnn hp hstale] at h
            simp only [Prod.mk.injEq, ReplayOutcome.rejected.injEq] at h
            exact ⟨h.1.1.symm, Or.inl h.2.symm⟩
          · rcases hq : purgeNonces st now (r.nonceHeader.getD "") with _ | e'
            · rw [antiReplayStep_fresh W st r now v hm hts hnn hp (not_lt.mp hstale) hq] at h
              simp at h
            · rw [antiReplayStep_reuse W st r now v e' hm hts hnn hp (not_lt.mp hstale) hq]
                at h
              simp only [Prod.mk.injEq, ReplayOutcome.rejected.injEq] at h
              exact ⟨h.1.1.symm, Or.inr h.2.symm⟩
      · rw [antiReplayStep_missing W st r now hm (Or.inr (Bool.eq_false_iff.mpr hnn))] at h
        simp only [Prod.mk.injEq, ReplayOutcome.rejected.injEq] at h
        exact ⟨h.1.1.symm, Or.inl h.2.symm⟩
    · rw [antiReplayStep_missing W st r now hm (Or.inl (Bool.eq_false_iff.mpr hts))] at h
      simp only [Prod.mk.injEq, ReplayOutcome.rejected.injEq] at h
      exact ⟨h.1.1.symm, Or.inl h.2.symm⟩
  · rw [antiReplayStep_not_mutating W st r now hm] at h
    simp at h

/-- An admission on a mutating request records the request's nonce. -/
theorem antiReplayStep_admitted_cases (W : ℤ) (st : NonceStore) (r : ReplayRequest)
    (now : ℤ) (ns : NonceStore) (hm : r.method ∈ MUTATING_METHODS)
    (h : antiReplayStep W st r now = (.admitted, ns)) :
    ns (r.nonceHeader.getD "") = some (now + W) := by
  have h1 : (antiReplayStep W st r now).1 = .admitted := by rw [h]
  have h2 : (antiReplayStep W st r now).2 = ns := by rw [h]
  by_cases hts : truthy r.tsHeader = true
  · by_cases hnn : truthy r.nonceHeader = true
    · rcases hp : pyInt (r.tsHeader.getD "") with _ | v
      · rw [antiReplayStep_invalid W st r now hm hts hnn hp] at h1; cases h1
      · by_cases hstale : W < |now - v|
        · rw [antiReplayStep_stale W st r now v hm hts hnn hp hstale] at h1; cases h1
        · rcases hq : purgeNonces st now (r.nonceHeader.getD "") with _ | e'
          · rw [antiReplayStep_fresh W st r now v hm hts hnn hp (not_lt.mp hstale) hq] at h2
            rw [← h2]
            simp
          · rw [antiReplayStep_reuse W st r now v e' hm hts hnn hp (not_lt.mp hstale) hq] at h1
            cases h1
    · rw [antiReplayStep_missing W st r now hm (Or.inr (Bool.eq_false_iff.mpr hnn))] at h1
      cases h1
  · rw [antiReplayStep_missing W st r now hm (Or.inl (Bool.eq_false_iff.mpr hts))] at h1
    cases h1

/-- Inversion of the rate-limit layer when it passes the request on. -/
theorem rateLayer_none (cfg : RateConfig) (st : AppState) (req : Request) (now : ℚ)
    (h0 : ¬ cfg.rps ≤ 0) (st1 : AppState)
    (h : rateLayer cfg st req now = (none, st1)) :
    (rateDecide cfg (st.rate req.host) now).1 = true ∧
    st1 = { st with rate :=
      fun k => if k = req.host then some (rateDecide cfg (st.rate req.host) now).2 else st.rate k } := by
  simp only [rateLayer, if_neg h0] at h
  by_cases hd : (rateDecide cfg (st.rate req.host) now).1 = true
  · rw [if_pos hd] at h
    exact ⟨hd, (Prod.mk.injEq .. ▸ h).2.symm⟩
  · rw [if_neg hd] at h
    simp at h

/-- Inversion of the rate-limit layer when it rejects. -/
theorem rateLayer_some (cfg : RateConfig) (st : AppState) (req : Request) (now : ℚ)
    (h0 : ¬ cfg.rps ≤ 0) (s : ℕ) (st1 : AppState)
    (h : rateLayer cfg st req now = (some s, st1)) :
    s = 429 ∧ (rateDecide cfg (st.rate req.host) now).1 = false ∧
    st1 = { st with rate :=
      fun k => if k = req.host then some (rateDecide cfg (st.rate req.host) now).2 else st.rate k } := by
  simp only [rateLayer, if_neg h0] at h
  by_cases hd : (rateDecide cfg (st.rate req.host) now).1 = true
  · rw [if_pos hd] at h
    simp at h
  · rw [if_neg hd] at h
    obtain ⟨h1, h2⟩ := Prod.mk.injEq .. ▸ h
    exact ⟨by cases h1; rfl, by simpa using hd, h2.symm⟩

/-- Inversion of the anti-replay layer when it passes the request on. -/
theorem replayLayer_none (W : ℤ) (st1 : AppState) (req : Request) (now : ℤ) (st2 : AppState)
    (h : replayLayer W st1 req now = (none, st2)) :
    antiReplayStep W st1.nonces req.replay now = (.admitted, st2.nonces) ∧
    st2 = { st1 with nonces := st2.nonces } := by
  unfold replayLayer at h
  rcases har : antiReplayStep W st1.nonces req.replay now with ⟨o, ns⟩
  rw [har] at h
  cases o with
  | admitted =>
    obtain ⟨h1, h2⟩ := Prod.mk.injEq .. ▸ h
    subst h2
    exact ⟨rfl, rfl⟩
  | rejected s ρ => simp at h

/-- Inversion of the anti-replay layer when it rejects. -/
theorem replayLayer_some (W : ℤ) (st1 : AppState) (req : Request) (now : ℤ) (s : ℕ)
    (st2 : AppState) (h : replayLayer W st1 req now = (some s, st2)) :
    ∃ ρ, antiReplayStep W st1.nonces req.replay now = (.rejected s ρ, st2.nonces) ∧
      st2 = { st1 with nonces := st2.nonces } := by
  unfold replayLayer at h
  rcases har : antiReplayStep W st1.nonces req.replay now with ⟨o, ns⟩
  rw [har] at h
  cases o with
  | admitted => simp at h
  | rejected s' ρ =>
    obtain ⟨h1, h2⟩ := Prod.mk.injEq .. ▸ h
    cases h1
    subst h2
    exact ⟨ρ, rfl, rfl⟩

/-- C2, amended.  State effects of rejected requests in the pipeline as the
source composes it (with the rate limiter enabled): a request rejected by the
rate limiter (429) leaves the nonce and session stores untouched and only the
client's own bucket refilled, with no token consumed; a mutating request
rejected by the anti-replay check (401) leaves the session store untouched and
registers no nonce (at most it purges expired records), but has already
consumed a rate-limit token; a mutating request rejected by the handler-level
CSRF check (403) has already consumed a rate-limit token and registered its
nonce, and its session store is the same one an admitted request would create:
both the 403 case and the 200 case leave the session store equal to the
session resolution applied to the original store. -/
theorem pipeline_rejection_state_effects (cfg : RateConfig) (W : ℤ) (ttl : ℚ)
    (st : AppState) (req : Request) (now : ℚ) (freshSid : String) (hrps : 0 < cfg.rps) :
    ((pipeline cfg W ttl st req now freshSid).1 = 429 →
       (pipeline cfg W ttl st req now freshSid).2.nonces = st.nonces ∧
       (pipeline cfg W ttl st req now freshSid).2.sessions = st.sessions ∧
       (∀ k, k ≠ req.host → (pipeline cfg W ttl st req now freshSid).2.rate k = st.rate k) ∧
       (pipeline cfg W ttl st req now freshSid).2.rate req.host
         = some (rateObserve cfg (st.rate req.host) now)) ∧
    ((pipeline cfg W ttl st req now freshSid).1 = 401 →
       (pipeline cfg W ttl st req now freshSid).2.sessions = st.sessions ∧
       (∀ k, st.nonces k = none →
          (pipeline cfg W ttl st req now freshSid).2.nonces k = none) ∧
       (rateDecide cfg (st.rate req.host) now).1 = true ∧
       (pipeline cfg W ttl st req now freshSid).2.rate req.host
         = some (rateDecide cfg (st.rate req.host) now).2) ∧
    ((pipeline cfg W ttl st req now freshSid).1 = 403 →
       req.method ∈ MUTATING_METHODS ∧
       (rateDecide cfg (st.rate req.host) now).1 = true ∧
       (pipeline cfg W ttl st req now freshSid).2.rate req.host
         = some (rateDecide cfg (st.rate req.host) now).2 ∧
       (pipeline cfg W ttl st req now freshSid).2.nonces (req.nonceHeader.getD "")
         = some (⌊now⌋ + W) ∧
       (pipeline cfg W ttl st req now freshSid).2.sessions
         = (sessionResolve ttl st.sessions req.sidCookie now freshSid).2) ∧
    ((pipeline cfg W ttl st req now freshSid).1 = 200 →
       (pipeline cfg W ttl st req now freshSid).2.sessions
         = (sessionResolve ttl st.sessions req.sidCookie now freshSid).2) := by
  have h0 : ¬ cfg.rps ≤ 0 := not_le.mpr hrps
  rcases hrl : rateLayer cfg st req now with ⟨o1, st1⟩
  rcases o1 with _ | s1
  · obtain ⟨hd, hst1⟩ := rateLayer_none cfg st req now h0 st1 hrl
    have hd' : (rateDecide cfg (st.rate req.host) now).1 = true := hd
    rcases hrp : replayLayer W st1 req ⌊now⌋ with ⟨o2, st2⟩
    rcases o2 with _ | s2
    · obtain ⟨har, hst2⟩ := replayLayer_none W st1 req ⌊now⌋ st2 hrp
      have hrate2 : st2.rate = st1.rate := by rw [hst2]
      have hsess2 : st2.sessions = st1.sessions := by rw [hst2]
      rcases hcs : csrfStatus req with _ | s3
      · have hp : pipeline cfg W ttl st req now freshSid
            = (200, sessionLayer ttl st2 req now freshSid) := by
          simp [pipeline, hrl, hrp, hcs]
        rw [hp]
        refine ⟨fun hstat => absurd hstat (by norm_num),
          fun hstat => absurd hstat (by norm_num),
          fun hstat => absurd hstat (by norm_num), fun _ => ?_⟩
        show (sessionResolve ttl st2.sessions req.sidCookie now freshSid).2
            = (sessionResolve ttl st.sessions req.sidCookie now freshSid).2
        rw [hsess2, hst1]
      · obtain ⟨hs3, hmut⟩ := csrfStatus_some req s3 hcs
        subst hs3
        have hp : pipeline cfg W ttl st req now freshSid
            = (403, sessionLayer ttl st2 req now freshSid) := by
          simp [pipeline, hrl, hrp, hcs]
        rw [hp]
        refine ⟨fun hstat => absurd hstat (by norm_num),
          fun hstat => absurd hstat (by norm_num), fun _ => ⟨hmut, hd', ?_, ?_, ?_⟩,
          fun hstat => absurd hstat (by norm_num)⟩
        · show st2.rate req.host = some (rateDecide cfg (st.rate req.host) now).2
          rw [hrate2, hst1]
          simp
        · show st2.nonces (req.nonceHeader.getD "") = some (⌊now⌋ + W)
          have := antiReplayStep_admitted_cases W st1.nonces req.replay ⌊now⌋ st2.nonces
            hmut har
          simpa using this
        · show (sessionResolve ttl st2.sessions req.sidCookie now freshSid).2
              = (sessionResolve ttl st.sessions req.sidCookie now freshSid).2
          rw [hsess2, hst1]
    · obtain ⟨ρ, har, hst2⟩ := replayLayer_some W st1 req ⌊now⌋ s2 st2 hrp
      obtain ⟨hs2, hns⟩ :=
        antiReplayStep_rejected_cases W st1.nonces req.replay ⌊now⌋ s2 ρ st2.nonces har
      subst hs2
      have hrate2 : st2.rate = st1.rate := by rw [hst2]
      have hsess2 : st2.sessions = st1.sessions := by rw [hst2]
      have hnonces1 : st1.nonces = st.nonces := by rw [hst1]
      have hp : pipeline cfg W ttl st req now freshSid = (401, st2) := by
        simp [pipeline, hrl, hrp]
      rw [hp]
      refine ⟨fun hstat => absurd hstat (by norm_num), fun _ => ?_,
        fun hstat => absurd hstat (by norm_num),
        fun hstat => absurd hstat (by norm_num)⟩
      refine ⟨?_, ?_, hd', ?_⟩
      · show st2.sessions = st.sessions
        rw [hsess2, hst1]
      · intro k hk
        show st2.nonces k = none
        rcases hns with hns | hns
        · rw [hns, hnonces1]; exact hk
        · rw [hns]
          exact purgeNonces_none _ _ _ (by rw [hnonces1]; exact hk)
      · show st2.rate req.host = some (rateDecide cfg (st.rate req.host) now).2
        rw [hrate2, hst1]
        simp
  · obtain ⟨hs1, hd, hst1⟩ := rateLayer_some cfg st req now h0 s1 st1 hrl
    subst hs1
    have hp : pipeline cfg W ttl st req now freshSid = (429, st1) := by
      simp [pipeline, hrl]
    rw [hp]
    refine ⟨fun _ => ?_, fun hstat => absurd hstat (by norm_num),
      fun hstat => absurd hstat (by norm_num),
      fun hstat => absurd hstat (by norm_num)⟩
    have hobs : (rateDecide cfg (st.rate req.host) now).2
        = rateObserve cfg (st.rate req.host) now := by
      rw [rateDecide_false cfg (st.rate req.host) now hd]
    refine ⟨?_, ?_, ?_, ?_⟩
    · rw [hst1]
    · rw [hst1]
    · intro k hk
      rw [hst1]
      simp [hk]
    · rw [hst1]
      simp [hobs]

/-- C2, counterexample.  A POST to `/api/chat` (fresh client, valid `X-TS` and
`X-Nonce`, no CSRF token) is rejected by the handler-level CSRF check with 403,
yet it has consumed a rate-limit token (the fresh bucket holds 19 of 20
tokens afterwards) and registered its nonce (`n1 ↦ 300` is in the store) —
refuting the claim that a CSRF-rejected request consumes no token and
registers no nonce. -/
theorem csrf_reject_consumed_token_and_nonce :
    (pipeline defaultRateConfig 300 1800
      ⟨fun _ => none, fun _ => none, fun _ => none⟩
      ⟨"POST", some "1.2.3.4", none, none, none, some "0", some "n1"⟩ 0 "S").1 = 403 ∧
    (pipeline defaultRateConfig 300 1800
      ⟨fun _ => none, fun _ => none, fun _ => none⟩
      ⟨"POST", some "1.2.3.4", none, none, none, some "0", some "n1"⟩ 0 "S").2.rate "1.2.3.4"
      = some ⟨19, 0⟩ ∧
    (pipeline defaultRateConfig 300 1800
      ⟨fun _ => none, fun _ => none, fun _ => none⟩
      ⟨"POST", some "1.2.3.4", none, none, none, some "0", some "n1"⟩ 0 "S").2.nonces "n1"
      = some 300 := by
  have hpy : pyInt "0" = some 0 := rfl
  have hne1 : (("0" : String) = "") = False := by simp
  have hne2 : (("n1" : String) = "") = False := by simp
  norm_num [pipeline, rateLayer, replayLayer, sessionLayer, csrfStatus, require_csrf,
    rateDecide, rateObserve, defaultRateConfig, antiReplayStep, purgeNonces, truthy,
    Request.host, Request.replay, hpy, hne1, hne2, min_def, max_def, MUTATING_METHODS]

/-- C2, witness for `pipeline_rejection_state_effects`: a client whose bucket
is empty is rejected with 429, and its nonce store is untouched. -/
theorem pipeline_rejection_state_effects_witness :
    (pipeline defaultRateConfig 300 1800
      ⟨fun _ => none, fun _ => none, fun k => if k = "1.2.3.4" then some ⟨0, 0⟩ else none⟩
      ⟨"POST", some "1.2.3.4", none, none, none, some "0", some "n1"⟩ 0 "S").1 = 429 ∧
    (pipeline defaultRateConfig 300 1800
      ⟨fun _ => none, fun _ => none, fun k => if k = "1.2.3.4" then some ⟨0, 0⟩ else none⟩
      ⟨"POST", some "1.2.3.4", none, none, none, some "0", some "n1"⟩ 0 "S").2.nonces "n1"
      = none := by
  have h := pipeline_rejection_state_effects defaultRateConfig 300 1800
    ⟨fun _ => none, fun _ => none, fun k => if k = "1.2.3.4" then some ⟨0, 0⟩ else none⟩
    ⟨"POST", some "1.2.3.4", none, none, none, some "0", some "n1"⟩ 0 "S"
    (by norm_num [defaultRateConfig])
  have hs : (pipeline defaultRateConfig 300 1800
      ⟨fun _ => none, fun _ => none, fun k => if k = "1.2.3.4" then some ⟨0, 0⟩ else none⟩
      ⟨"POST", some "1.2.3.4", none, none, none, some "0", some "n1"⟩ 0 "S").1 = 429 := by
    norm_num [pipeline, rateLayer, rateDecide, rateObserve, defaultRateConfig,
      Request.host, min_def, max_def]
  refine ⟨hs, ?_⟩
  rw [(h.1 hs).1]

end ChatBackend
